import Mathlib

/-!
Verification of the IPPool admission validator
(`pkg/webhook/ippool/validator.go` of harvester-vm-dhcp-controller).

The Go code is shallowly embedded: `netip.Addr` becomes an inductive with an
invalid value, a plain IPv4 form and an IPv4-mapped-IPv6 form (the two forms
compare unequal under full `netip.Addr` equality but agree under `As4()`);
`net.IPNet` becomes a network number plus prefix length; `fmt.Errorf` messages
with one `%s` argument become a structured record of the literal text around
the formatted address, so that which address value a message references is
preserved.  External collaborators (the pool loader, the NAD cache, the
VirtualMachineNetworkConfig lookup) are parameters of the entry points.
-/

namespace VmDhcp

/-- Model of `netip.Addr` restricted to what the validator manipulates:
the invalid zero value, a plain IPv4 address, or an IPv4-mapped IPv6
address.  The payload is the 32-bit address value.  Structural equality
distinguishes `v4 b` from `v4In6 b`, exactly as Go `netip.Addr` equality
distinguishes the two representations of one IPv4 value. -/
inductive Addr where
  | invalid : Addr
  | v4 : Nat → Addr
  | v4In6 : Nat → Addr
  deriving DecidableEq, Repr

/-- Model of `netip.Addr.IsValid`: false only for the zero `Addr`. -/
def Addr.IsValid : Addr → Bool
  | .invalid => false
  | .v4 _ => true
  | .v4In6 _ => true

/-- Model of `netip.Addr.As4` as a 32-bit value: both the plain IPv4 form and the
IPv4-mapped IPv6 form yield the underlying 4-byte address.  (Go panics on
an invalid address; the validator only calls `As4` on addresses produced
by the loader, so the `invalid` case is arbitrary here.) -/
def Addr.As4 : Addr → Nat
  | .invalid => 0
  | .v4 b => b
  | .v4In6 b => b

/-- Model of `net.IPNet`: the network number and the prefix length
(`ones`) of the mask. -/
structure IPNet where
  network : Nat
  ones : Nat
  deriving DecidableEq, Repr

/-- Model of `net.IPNet.Contains` applied to `addr.AsSlice()`: an invalid address
yields a nil slice, which is never contained; both IPv4 forms are reduced
to 4 bytes (`ip.To4()` inside `Contains`) and compared on the top `ones`
bits against the network number. -/
def IPNet.Contains (n : IPNet) (a : Addr) : Bool :=
  match a with
  | .invalid => false
  | .v4 b => b / 2 ^ (32 - n.ones) = n.network / 2 ^ (32 - n.ones)
  | .v4In6 b => b / 2 ^ (32 - n.ones) = n.network / 2 ^ (32 - n.ones)

/-- Model of `util.PoolInfo` as consumed by the validator: the subnet, its two
reserved addresses, and the four optional role addresses (absent = the
invalid `Addr`). -/
structure PoolInfo where
  IPNet : IPNet
  NetworkIPAddr : Addr
  BroadcastIPAddr : Addr
  StartIPAddr : Addr
  EndIPAddr : Addr
  ServerIPAddr : Addr
  RouterIPAddr : Addr
  deriving DecidableEq, Repr

/-- A validation error.  `addrMsg pre arg post` models
`fmt.Errorf(pre ++ "%s" ++ post, arg)` for an address argument — keeping
the argument as an `Addr` records which address value the message
references.  `strMsg` is the analogous form for a string argument,
`ext` is an error returned verbatim by an external collaborator, and
`wrapped` models wrapping with `webhook.CreateErr` / `webhook.DeleteErr`
(which interpolate a kind, namespace and name around the inner error). -/
inductive VError where
  | addrMsg (pre : String) (arg : Addr) (post : String)
  | strMsg (pre : String) (arg : String) (post : String)
  | ext (e : String)
  | wrapped (fmt kind ns name : String) (inner : VError)
  deriving DecidableEq, Repr

/-- The trailing part of `checkPoolRange`: the `if pi.EndIPAddr.IsValid()`
block, reached whenever the start-address block did not return. -/
def checkPoolRangeEndPart (pi : PoolInfo) : Option VError :=
  if pi.EndIPAddr.IsValid then
    if ¬ pi.IPNet.Contains pi.EndIPAddr then
      some (.addrMsg "end ip " pi.EndIPAddr " is not within subnet")
    else if pi.EndIPAddr.As4 = pi.NetworkIPAddr.As4 then
      some (.addrMsg "end ip " pi.EndIPAddr " is the same as network ip")
    else if pi.EndIPAddr.As4 = pi.BroadcastIPAddr.As4 then
      some (.addrMsg "end ip " pi.EndIPAddr " is the same as broadcast ip")
    else
      none
  else
    none

/-- Source `Validator.checkPoolRange`: the start-address block (three rules with
early return), falling through to the end-address block. -/
def checkPoolRange (pi : PoolInfo) : Option VError :=
  if pi.StartIPAddr.IsValid then
    if ¬ pi.IPNet.Contains pi.StartIPAddr then
      some (.addrMsg "start ip " pi.StartIPAddr " is not within subnet")
    else if pi.StartIPAddr.As4 = pi.NetworkIPAddr.As4 then
      some (.addrMsg "start ip " pi.StartIPAddr " is the same as network ip")
    else if pi.StartIPAddr.As4 = pi.BroadcastIPAddr.As4 then
      some (.addrMsg "start ip " pi.StartIPAddr " is the same as broadcast ip")
    else
      checkPoolRangeEndPart pi
  else
    checkPoolRangeEndPart pi

/-- The `for _, ip := range allocatedIPs` loop at the end of
`checkServerIP`: full `netip.Addr` equality against each allocated
address, returning on the first match. -/
def serverAllocatedLoop (pi : PoolInfo) : List Addr → Option VError
  | [] => none
  | ip :: rest =>
    if pi.ServerIPAddr = ip then
      some (.addrMsg "server ip " pi.ServerIPAddr " is already allocated")
    else
      serverAllocatedLoop pi rest

/-- Source `Validator.checkServerIP`: nil when the server address is absent,
otherwise four early-return rules followed by the allocated-address
loop. -/
def checkServerIP (pi : PoolInfo) (allocatedIPs : List Addr) : Option VError :=
  if ¬ pi.ServerIPAddr.IsValid then
    none
  else if ¬ pi.IPNet.Contains pi.ServerIPAddr then
    some (.addrMsg "server ip " pi.ServerIPAddr " is not within subnet")
  else if pi.ServerIPAddr.As4 = pi.NetworkIPAddr.As4 then
    some (.addrMsg "server ip " pi.ServerIPAddr " cannot be the same as network ip")
  else if pi.ServerIPAddr.As4 = pi.BroadcastIPAddr.As4 then
    some (.addrMsg "server ip " pi.ServerIPAddr " cannot be the same as broadcast ip")
  else if pi.RouterIPAddr.IsValid ∧ pi.ServerIPAddr.As4 = pi.RouterIPAddr.As4 then
    some (.addrMsg "server ip " pi.ServerIPAddr " cannot be the same as router ip")
  else
    serverAllocatedLoop pi allocatedIPs

/-- Source `Validator.checkRouter`: nil when the router address is absent,
otherwise three early-return rules.  Note the third rule interpolates
`pi.BroadcastIPAddr`, not the router address, exactly as the source
does. -/
def checkRouter (pi : PoolInfo) : Option VError :=
  if ¬ pi.RouterIPAddr.IsValid then
    none
  else if ¬ pi.IPNet.Contains pi.RouterIPAddr then
    some (.addrMsg "router ip " pi.RouterIPAddr " is not within subnet")
  else if pi.RouterIPAddr.As4 = pi.NetworkIPAddr.As4 then
    some (.addrMsg "router ip " pi.RouterIPAddr " is the same as network ip")
  else if pi.RouterIPAddr.As4 = pi.BroadcastIPAddr.As4 then
    some (.addrMsg "router ip " pi.BroadcastIPAddr " is the same as broadcast ip")
  else
    none

/-- Helper of `RSplit`: locate the last '/' of the list.  Returns
`some (before, after)` when a '/' exists (split at its last occurrence),
`none` otherwise. -/
def rsplitSlashAux : List Char → Option (List Char × List Char)
  | [] => none
  | c :: rest =>
    match rsplitSlashAux rest with
    | some (pre, post) => some (c :: pre, post)
    | none => if c = '/' then some ([], rest) else none

/-- Modelled from the spec: `kv.RSplit(s, "/")` from the external
`rancher/wrangler` kv package, as the spec describes it — split the
identifier at its last '/' into a namespace part and a name part; when
no '/' is present the namespace part is empty and the name is the whole
string. -/
def RSplit (s : List Char) : List Char × List Char :=
  match rsplitSlashAux s with
  | some p => p
  | none => ([], s)

/-- Source `Validator.checkNAD`: split the namespaced name, default an empty
namespace to "default", and return exactly the cache lookup's result
(`nadGet` models `v.nadCache.Get`, with `none` for a nil error). -/
def checkNAD (nadGet : List Char → List Char → Option String)
    (namespacedName : List Char) : Option String :=
  let p := RSplit namespacedName
  let nadNamespace := if p.1 = [] then "default".toList else p.1
  nadGet nadNamespace p.2

/-- A `VirtualMachineNetworkConfig` as the deletion check consumes it:
its namespace and name. -/
structure VmNetCfg where
  Namespace : String
  Name : String
  deriving DecidableEq, Repr

/-- Model of the `IPPool` object fields the validator reads.  The raw
spec fields behind `util.LoadPool` are abstracted away (the loader is a
parameter of the entry points); `StatusIPv4Allocated` models
`ipPool.Status.IPv4` being nil or carrying an `Allocated` map (kept
opaque as a list of key/value pairs, decoded by the `loadAllocated`
parameter). -/
structure IPPool where
  Kind : String
  Namespace : String
  Name : String
  DeletionTimestamp : Option Nat
  SpecNetworkName : List Char
  StatusIPv4Allocated : Option (List (String × String))
  deriving DecidableEq, Repr

/-- Wrapping `fmt.Errorf(webhook.CreateErr, "IPPool", ns, name, err)`. -/
def wrapCreate (p : IPPool) (e : VError) : VError :=
  .wrapped "CreateErr" "IPPool" p.Namespace p.Name e

/-- Wrapping `fmt.Errorf(webhook.DeleteErr, ipPool.Kind, ns, name, err)`. -/
def wrapDelete (p : IPPool) (e : VError) : VError :=
  .wrapped "DeleteErr" p.Kind p.Namespace p.Name e

/-- Source `Validator.Create`: load, then the four checks in sequence, each
failure wrapped and returned immediately.  `loadPool` models
`util.LoadPool`. -/
def Create (nadGet : List Char → List Char → Option String)
    (loadPool : IPPool → Except String PoolInfo)
    (ipPool : IPPool) : Option VError :=
  match loadPool ipPool with
  | .error err => some (wrapCreate ipPool (.ext err))
  | .ok poolInfo =>
    match checkNAD nadGet ipPool.SpecNetworkName with
    | some err => some (wrapCreate ipPool (.ext err))
    | none =>
      match checkPoolRange poolInfo with
      | some err => some (wrapCreate ipPool err)
      | none =>
        match checkServerIP poolInfo [] with
        | some err => some (wrapCreate ipPool err)
        | none =>
          match checkRouter poolInfo with
          | some err => some (wrapCreate ipPool err)
          | none => none

/-- Source `Validator.Update`: accept unconditionally when the deletion
timestamp is set; otherwise load, derive the allocated list from the
status (empty when `Status.IPv4` is nil; `loadAllocated` models
`util.LoadAllocated`), then the four checks in sequence with the
allocated list passed to `checkServerIP`. -/
def Update (nadGet : List Char → List Char → Option String)
    (loadPool : IPPool → Except String PoolInfo)
    (loadAllocated : List (String × String) → List Addr)
    (ipPool : IPPool) : Option VError :=
  if ipPool.DeletionTimestamp.isSome then
    none
  else
    match loadPool ipPool with
    | .error err => some (wrapCreate ipPool (.ext err))
    | .ok poolInfo =>
      let allocatedIPAddrList :=
        match ipPool.StatusIPv4Allocated with
        | some allocated => loadAllocated allocated
        | none => []
      match checkNAD nadGet ipPool.SpecNetworkName with
      | some err => some (wrapCreate ipPool (.ext err))
      | none =>
        match checkPoolRange poolInfo with
        | some err => some (wrapCreate ipPool err)
        | none =>
          match checkServerIP poolInfo allocatedIPAddrList with
          | some err => some (wrapCreate ipPool err)
          | none =>
            match checkRouter poolInfo with
            | some err => some (wrapCreate ipPool err)
            | none => none

/-- Source `Validator.checkVmNetCfgs`: run the dependency lookup
(`whoUseIPPool` models `util.VmnetcfgGetter.WhoUseIPPool`); propagate a
lookup failure verbatim; when dependents exist, reject with the
comma-joined `namespace/name` list; otherwise nil. -/
def checkVmNetCfgs (whoUseIPPool : IPPool → Except String (List VmNetCfg))
    (ipPool : IPPool) : Option VError :=
  match whoUseIPPool ipPool with
  | .error err => some (.ext err)
  | .ok vmNetCfgs =>
    if vmNetCfgs.length > 0 then
      let vmNetCfgNames := vmNetCfgs.map (fun c => c.Namespace ++ "/" ++ c.Name)
      some (.strMsg "it's still used by VirtualMachineNetworkConfig(s) "
        (String.intercalate ", " vmNetCfgNames)
        ", which must be removed at first")
    else
      none

/-- Source `Validator.Delete`: the dependency check, its failure wrapped with
`webhook.DeleteErr`. -/
def Delete (whoUseIPPool : IPPool → Except String (List VmNetCfg))
    (ipPool : IPPool) : Option VError :=
  match checkVmNetCfgs whoUseIPPool ipPool with
  | some err => some (wrapDelete ipPool err)
  | none => none

/-! ### Spec-side definitions

The spec (§4.2, §4.3) words each validator as an ordered list of rules
evaluated first-violation-wins.  The following definitions transcribe
those words; the refinement theorems below compare them with the
source-side definitions above. -/

/-- The spec's short-circuit engine: the first violation in an ordered
rule list, `none` when no rule fails. -/
def firstViolation : List (Option VError) → Option VError
  | [] => none
  | r :: rest =>
    match r with
    | some e => some e
    | none => firstViolation rest

/-- Spec §4.2, per-bound: a present bound X is checked against exactly
three rules in order — subnet membership, inequality with the network
address, inequality with the broadcast address — first violation wins. -/
def boundViolation (pi : PoolInfo) (role : String) (x : Addr) : Option VError :=
  firstViolation
    [ if pi.IPNet.Contains x then none
      else some (.addrMsg role x " is not within subnet"),
      if x.As4 = pi.NetworkIPAddr.As4 then
        some (.addrMsg role x " is the same as network ip")
      else none,
      if x.As4 = pi.BroadcastIPAddr.As4 then
        some (.addrMsg role x " is the same as broadcast ip")
      else none ]

/-- Spec §4.2 RangeValidator: the start bound is evaluated entirely
before the end bound; a missing bound is skipped; the first violation
encountered is returned. -/
def RangeValidatorSpec (pi : PoolInfo) : Option VError :=
  firstViolation
    [ if pi.StartIPAddr.IsValid then boundViolation pi "start ip " pi.StartIPAddr else none,
      if pi.EndIPAddr.IsValid then boundViolation pi "end ip " pi.EndIPAddr else none ]

/-- Spec §4.3 ServerAddressValidator: absence is always valid; a present
server address is checked against five ordered rules — subnet
membership, network-address inequality, broadcast-address inequality,
inequality with a present router address, and inequality with every
supplied allocated address (in the given order, first match rejects) —
each with its own distinctly worded error, first violation wins. -/
def ServerAddressValidatorSpec (pi : PoolInfo) (allocatedIPs : List Addr) : Option VError :=
  if pi.ServerIPAddr.IsValid then
    firstViolation
      [ if pi.IPNet.Contains pi.ServerIPAddr then none
        else some (.addrMsg "server ip " pi.ServerIPAddr " is not within subnet"),
        if pi.ServerIPAddr.As4 = pi.NetworkIPAddr.As4 then
          some (.addrMsg "server ip " pi.ServerIPAddr " cannot be the same as network ip")
        else none,
        if pi.ServerIPAddr.As4 = pi.BroadcastIPAddr.As4 then
          some (.addrMsg "server ip " pi.ServerIPAddr " cannot be the same as broadcast ip")
        else none,
        if pi.RouterIPAddr.IsValid ∧ pi.ServerIPAddr.As4 = pi.RouterIPAddr.As4 then
          some (.addrMsg "server ip " pi.ServerIPAddr " cannot be the same as router ip")
        else none,
        serverAllocatedLoop pi allocatedIPs ]
  else
    none

/-! ### Concrete sample data for witnesses

Subnet 192.168.0.0/24: network number 3232235520, broadcast
3232235775. -/

/-- A well-formed sample pool on 192.168.0.0/24 with server
192.168.0.2, router 192.168.0.1, range 192.168.0.10 – 192.168.0.200. -/
def samplePool : PoolInfo :=
  { IPNet := { network := 3232235520, ones := 24 }
    NetworkIPAddr := .v4 3232235520
    BroadcastIPAddr := .v4 3232235775
    StartIPAddr := .v4 3232235530
    EndIPAddr := .v4 3232235720
    ServerIPAddr := .v4 3232235522
    RouterIPAddr := .v4 3232235521 }

/-- Like `samplePool` but with the server address given in the
IPv4-mapped-IPv6 representation and the router sharing its 4-byte
value in the plain representation. -/
def samplePoolMapped : PoolInfo :=
  { samplePool with
    ServerIPAddr := .v4In6 3232235523
    RouterIPAddr := .v4 3232235523 }

/-- A sample `IPPool` object without a deletion timestamp. -/
def sampleIPPool : IPPool :=
  { Kind := "IPPool"
    Namespace := "default"
    Name := "pool1"
    DeletionTimestamp := none
    SpecNetworkName := "default/net1".toList
    StatusIPv4Allocated := some [("192.168.0.2", "mac1")] }

/-! ### Helper lemmas -/

/-- The allocated-address loop rejects exactly when the server address is
a member of the list, always with the already-allocated message. -/
theorem serverAllocatedLoop_mem (pi : PoolInfo) (l : List Addr)
    (h : pi.ServerIPAddr ∈ l) :
    serverAllocatedLoop pi l
      = some (.addrMsg "server ip " pi.ServerIPAddr " is already allocated") := by
  induction l with
  | nil => cases h
  | cons a rest ih =>
    by_cases hx : pi.ServerIPAddr = a
    · simp [serverAllocatedLoop, hx]
    · have : pi.ServerIPAddr ∈ rest := by
        cases h with
        | head => exact absurd rfl hx
        | tail _ hm => exact hm
      simp [serverAllocatedLoop, hx, ih this]

/-- When the split helper finds no '/', there is none in the string. -/
theorem rsplitSlashAux_none :
    ∀ s : List Char, rsplitSlashAux s = none → ('/' : Char) ∉ s := by
  intro s
  induction s with
  | nil =>
    intro _
    simp
  | cons c rest ih =>
    intro h
    unfold rsplitSlashAux at h
    cases haux : rsplitSlashAux rest with
    | some p =>
      obtain ⟨pre, post⟩ := p
      rw [haux] at h
      simp at h
    | none =>
      rw [haux] at h
      by_cases hc : c = '/'
      · rw [if_pos hc] at h
        simp at h
      · have hrest := ih haux
        simp only [List.mem_cons]
        intro hor
        cases hor with
        | inl he => exact hc he.symm
        | inr hm => exact hrest hm

/-- When the split helper returns `(pre, post)`, the string is
`pre ++ '/' :: post` and `post` holds no further '/' — that is, the
split happened at the last '/'. -/
theorem rsplitSlashAux_some :
    ∀ s pre post : List Char, rsplitSlashAux s = some (pre, post) →
      s = pre ++ '/' :: post ∧ ('/' : Char) ∉ post := by
  intro s
  induction s with
  | nil =>
    intro pre post h
    simp [rsplitSlashAux] at h
  | cons c rest ih =>
    intro pre post h
    unfold rsplitSlashAux at h
    cases haux : rsplitSlashAux rest with
    | some p =>
      obtain ⟨pre0, post0⟩ := p
      rw [haux] at h
      simp only [Option.some.injEq, Prod.mk.injEq] at h
      obtain ⟨h1, h2⟩ := h
      obtain ⟨hr, hnp⟩ := ih pre0 post0 haux
      subst h1
      subst h2
      constructor
      · rw [hr]
        simp
      · exact hnp
    | none =>
      rw [haux] at h
      by_cases hc : c = '/'
      · rw [if_pos hc] at h
        simp only [Option.some.injEq, Prod.mk.injEq] at h
        obtain ⟨h1, h2⟩ := h
        subst h1
        subst h2
        exact ⟨by rw [hc]; rfl, rsplitSlashAux_none rest haux⟩
      · rw [if_neg hc] at h
        simp at h

/-! ### Claim theorems -/

/-- C1: `checkPoolRange` validates a present start bound and a present
end bound each against exactly three rules in order (subnet membership,
network-address inequality, broadcast-address inequality), start bound
entirely before end bound, returning the first violation (with the
role, the offending address, and the rule broken); a missing bound is
skipped; with no failing rule it returns no error.  Stated as equality
with the rule-list transcription of spec §4.2. -/
theorem checkPoolRange_eq_spec (pi : PoolInfo) :
    checkPoolRange pi = RangeValidatorSpec pi := by
  unfold checkPoolRange checkPoolRangeEndPart RangeValidatorSpec boundViolation
  split_ifs <;> simp_all [firstViolation]

/-- C2: `checkServerIP` returns no error when the server address is
absent; when present it applies, in order, subnet membership,
network-address inequality, broadcast-address inequality, inequality
with a present router address, and inequality with every supplied
allocated address, each failure with its own distinctly worded error,
stopping at the first failing rule.  Stated as equality with the
rule-list transcription of spec §4.3. -/
theorem checkServerIP_eq_spec (pi : PoolInfo) (allocatedIPs : List Addr) :
    checkServerIP pi allocatedIPs = ServerAddressValidatorSpec pi allocatedIPs := by
  unfold checkServerIP ServerAddressValidatorSpec
  split_ifs <;>
    (simp_all [firstViolation]
     try cases serverAllocatedLoop pi allocatedIPs <;> rfl)

/-- C3: when the allocated set supplied on the Update path contains the
server address X, Update rejects with the already-allocated reason,
while Create on the very same pool object is accepted, because Create
invokes the server-address check with no allocated set. -/
theorem update_rejects_allocated_server_create_accepts
    (nadGet : List Char → List Char → Option String)
    (loadPool : IPPool → Except String PoolInfo)
    (loadAllocated : List (String × String) → List Addr)
    (ipPool : IPPool) (pi : PoolInfo) (X : Addr) (m : List (String × String))
    (hload : loadPool ipPool = .ok pi)
    (hdel : ipPool.DeletionTimestamp = none)
    (hnad : checkNAD nadGet ipPool.SpecNetworkName = none)
    (hrange : checkPoolRange pi = none)
    (hserver : checkServerIP pi [] = none)
    (hrouter : checkRouter pi = none)
    (hX : pi.ServerIPAddr = X)
    (hXv : X.IsValid = true)
    (hstat : ipPool.StatusIPv4Allocated = some m)
    (hmem : X ∈ loadAllocated m) :
    Update nadGet loadPool loadAllocated ipPool
      = some (wrapCreate ipPool (.addrMsg "server ip " X " is already allocated"))
    ∧ Create nadGet loadPool ipPool = none := by
  subst hX
  have hloop := serverAllocatedLoop_mem pi (loadAllocated m) hmem
  constructor
  · have hcs : checkServerIP pi (loadAllocated m)
        = some (.addrMsg "server ip " pi.ServerIPAddr " is already allocated") := by
      unfold checkServerIP at hserver ⊢
      split_ifs at hserver ⊢
      all_goals simp_all
    unfold Update
    simp [hdel, hload, hstat, hnad, hrange, hcs]
  · unfold Create
    simp [hload, hnad, hrange, hserver, hrouter]

/-- C3 witness: the sample pool on 192.168.0.0/24 with server
192.168.0.2 allocated. -/
theorem update_rejects_allocated_server_create_accepts_witness :
    Update (fun _ _ => none) (fun _ => .ok samplePool)
        (fun _ => [Addr.v4 3232235522]) sampleIPPool
      = some (wrapCreate sampleIPPool
          (.addrMsg "server ip " (Addr.v4 3232235522) " is already allocated"))
    ∧ Create (fun _ _ => none) (fun _ => .ok samplePool) sampleIPPool = none :=
  update_rejects_allocated_server_create_accepts
    (fun _ _ => none) (fun _ => .ok samplePool) (fun _ => [Addr.v4 3232235522])
    sampleIPPool samplePool (Addr.v4 3232235522) [("192.168.0.2", "mac1")]
    rfl rfl rfl (by decide) (by decide) (by decide) rfl rfl rfl (by decide)

/-- C4: deleting a pool with an empty dependent set is accepted; with a
non-empty set it is rejected with an error naming every dependent as
namespace/name, comma-joined, stating they must be removed first; a
failing lookup is propagated (verbatim by the check, wrapped by the
Delete entry point). -/
theorem delete_reference_integrity
    (whoUse : IPPool → Except String (List VmNetCfg)) (ipPool : IPPool) :
    (whoUse ipPool = .ok [] → Delete whoUse ipPool = none)
    ∧ (∀ cfgs, whoUse ipPool = .ok cfgs → cfgs ≠ [] →
        Delete whoUse ipPool
          = some (wrapDelete ipPool (.strMsg
              "it's still used by VirtualMachineNetworkConfig(s) "
              (String.intercalate ", " (cfgs.map (fun c => c.Namespace ++ "/" ++ c.Name)))
              ", which must be removed at first")))
    ∧ (∀ e, whoUse ipPool = .error e →
        checkVmNetCfgs whoUse ipPool = some (.ext e)
        ∧ Delete whoUse ipPool = some (wrapDelete ipPool (.ext e))) := by
  refine ⟨?_, ?_, ?_⟩
  · intro h
    unfold Delete checkVmNetCfgs
    rw [h]
    rfl
  · intro cfgs h hne
    have hlen : cfgs.length > 0 := List.length_pos.mpr hne
    unfold Delete checkVmNetCfgs
    rw [h]
    simp [hlen]
  · intro e h
    have hc : checkVmNetCfgs whoUse ipPool = some (.ext e) := by
      unfold checkVmNetCfgs
      rw [h]
    refine ⟨hc, ?_⟩
    unfold Delete
    rw [hc]

/-- C4 witness: empty, two-element, and failing dependency lookups on
the sample pool. -/
theorem delete_reference_integrity_witness :
    Delete (fun _ => .ok []) sampleIPPool = none
    ∧ Delete (fun _ => .ok [⟨"default", "cfg1"⟩, ⟨"ns2", "cfg2"⟩]) sampleIPPool
        = some (wrapDelete sampleIPPool (.strMsg
            "it's still used by VirtualMachineNetworkConfig(s) "
            "default/cfg1, ns2/cfg2"
            ", which must be removed at first"))
    ∧ Delete (fun _ => .error "lookup failed") sampleIPPool
        = some (wrapDelete sampleIPPool (.ext "lookup failed")) := by
  refine ⟨?_, ?_, ?_⟩
  · exact (delete_reference_integrity (fun _ => .ok []) sampleIPPool).1 rfl
  · have h := (delete_reference_integrity
        (fun _ => .ok [⟨"default", "cfg1"⟩, ⟨"ns2", "cfg2"⟩]) sampleIPPool).2.1
        [⟨"default", "cfg1"⟩, ⟨"ns2", "cfg2"⟩] rfl (by decide)
    exact h.trans (by decide)
  · exact ((delete_reference_integrity (fun _ => .error "lookup failed")
        sampleIPPool).2.2 "lookup failed" rfl).2

/-- C5: a present server address equal (as a 4-byte value) to a present
router address — having passed the subnet, network and broadcast rules —
is rejected with the same-as-router reason, for any allocated list; and
`checkRouter` never reads the server address, so its verdict is
identical under any two server addresses (the check is asymmetric). -/
theorem checkServerIP_router_asymmetry (pi : PoolInfo) (allocatedIPs : List Addr)
    (hv : pi.ServerIPAddr.IsValid = true)
    (hrv : pi.RouterIPAddr.IsValid = true)
    (hin : pi.IPNet.Contains pi.ServerIPAddr = true)
    (hnet : pi.ServerIPAddr.As4 ≠ pi.NetworkIPAddr.As4)
    (hbc : pi.ServerIPAddr.As4 ≠ pi.BroadcastIPAddr.As4)
    (heq : pi.ServerIPAddr.As4 = pi.RouterIPAddr.As4) :
    checkServerIP pi allocatedIPs
      = some (.addrMsg "server ip " pi.ServerIPAddr " cannot be the same as router ip")
    ∧ ∀ s1 s2 : Addr,
        checkRouter { pi with ServerIPAddr := s1 }
          = checkRouter { pi with ServerIPAddr := s2 } := by
  constructor
  · unfold checkServerIP
    split_ifs <;> simp_all
  · intro s1 s2
    rfl

/-- C5 witness: server 192.168.0.3 (IPv4-mapped form) equal to router
192.168.0.3; `checkRouter` verdict unchanged when the server address is
replaced. -/
theorem checkServerIP_router_asymmetry_witness :
    checkServerIP samplePoolMapped []
      = some (.addrMsg "server ip " (Addr.v4In6 3232235523) " cannot be the same as router ip")
    ∧ checkRouter { samplePoolMapped with ServerIPAddr := Addr.v4 3232235530 }
        = checkRouter { samplePoolMapped with ServerIPAddr := Addr.invalid } :=
  have h := checkServerIP_router_asymmetry samplePoolMapped []
    rfl rfl (by decide) (by decide) (by decide) rfl
  ⟨h.1, h.2 (Addr.v4 3232235530) Addr.invalid⟩

/-- C6: a present router address equal (as a 4-byte value) to the
broadcast address, within the subnet and distinct from the network
address, is rejected, and the rejection message interpolates the
broadcast address value — not the router address value. -/
theorem checkRouter_broadcast_message (pi : PoolInfo)
    (hrv : pi.RouterIPAddr.IsValid = true)
    (hin : pi.IPNet.Contains pi.RouterIPAddr = true)
    (hnet : pi.RouterIPAddr.As4 ≠ pi.NetworkIPAddr.As4)
    (heq : pi.RouterIPAddr.As4 = pi.BroadcastIPAddr.As4) :
    checkRouter pi
      = some (.addrMsg "router ip " pi.BroadcastIPAddr " is the same as broadcast ip") := by
  unfold checkRouter
  split_ifs
  all_goals simp_all

/-- C6 witness: the router is the IPv4-mapped form of 192.168.0.255 and
the broadcast the plain form; the message carries the broadcast value
`Addr.v4 3232235775`, not the router value `Addr.v4In6 3232235775`. -/
theorem checkRouter_broadcast_message_witness :
    checkRouter { samplePool with RouterIPAddr := Addr.v4In6 3232235775 }
      = some (.addrMsg "router ip " (Addr.v4 3232235775) " is the same as broadcast ip") :=
  checkRouter_broadcast_message { samplePool with RouterIPAddr := Addr.v4In6 3232235775 }
    rfl (by decide) (by decide) rfl

/-- C7: when the pool object's deletion timestamp is set, Update accepts
unconditionally — for every loader, NAD lookup and allocated-address
decoder, so before any of them could run or fail. -/
theorem update_deletion_timestamp_short_circuit
    (nadGet : List Char → List Char → Option String)
    (loadPool : IPPool → Except String PoolInfo)
    (loadAllocated : List (String × String) → List Addr)
    (ipPool : IPPool)
    (h : ipPool.DeletionTimestamp.isSome = true) :
    Update nadGet loadPool loadAllocated ipPool = none := by
  unfold Update
  simp [h]

/-- C7 witness: the loader and the NAD lookup both fail, yet Update on a
pool marked for deletion accepts. -/
theorem update_deletion_timestamp_short_circuit_witness :
    Update (fun _ _ => some "nad lookup failed") (fun _ => .error "malformed pool")
      (fun _ => []) { sampleIPPool with DeletionTimestamp := some 5 } = none :=
  update_deletion_timestamp_short_circuit
    (fun _ _ => some "nad lookup failed") (fun _ => .error "malformed pool")
    (fun _ => []) { sampleIPPool with DeletionTimestamp := some 5 } rfl

/-- C9: the range check imposes no ordering between the bounds: when
both bounds are present and each passes its three rules, `checkPoolRange`
accepts even when the start bound is numerically greater than the end
bound. -/
theorem checkPoolRange_accepts_reversed_range (pi : PoolInfo)
    (hsv : pi.StartIPAddr.IsValid = true)
    (hev : pi.EndIPAddr.IsValid = true)
    (hsin : pi.IPNet.Contains pi.StartIPAddr = true)
    (hein : pi.IPNet.Contains pi.EndIPAddr = true)
    (hsn : pi.StartIPAddr.As4 ≠ pi.NetworkIPAddr.As4)
    (hsb : pi.StartIPAddr.As4 ≠ pi.BroadcastIPAddr.As4)
    (hen : pi.EndIPAddr.As4 ≠ pi.NetworkIPAddr.As4)
    (heb : pi.EndIPAddr.As4 ≠ pi.BroadcastIPAddr.As4)
    (_hrev : pi.EndIPAddr.As4 < pi.StartIPAddr.As4) :
    checkPoolRange pi = none := by
  unfold checkPoolRange checkPoolRangeEndPart
  simp [hsv, hev, hsin, hein, hsn, hsb, hen, heb]

/-- C9 witness: start 192.168.0.200, end 192.168.0.10 — a reversed
range — is accepted. -/
theorem checkPoolRange_accepts_reversed_range_witness :
    checkPoolRange { samplePool with
        StartIPAddr := Addr.v4 3232235720, EndIPAddr := Addr.v4 3232235530 } = none :=
  checkPoolRange_accepts_reversed_range
    { samplePool with StartIPAddr := Addr.v4 3232235720, EndIPAddr := Addr.v4 3232235530 }
    rfl rfl (by decide) (by decide) (by decide) (by decide) (by decide) (by decide)
    (by decide)

/-- C10: the already-allocated rule compares full `netip.Addr` values
(representation included) while the network/broadcast/router rules
compare 4-byte forms: an allocated address denoting the same IPv4 value
as the server address but in the IPv4-mapped-IPv6 representation is not
reported as already allocated (first conjunct); the same value in the
plain representation is (second conjunct); by contrast, the router rule
does fire across the two representations (third conjunct). -/
theorem checkServerIP_allocated_representation :
    checkServerIP samplePool [Addr.v4In6 3232235522] = none
    ∧ checkServerIP samplePool [Addr.v4 3232235522]
        = some (.addrMsg "server ip " (Addr.v4 3232235522) " is already allocated")
    ∧ checkServerIP samplePoolMapped []
        = some (.addrMsg "server ip " (Addr.v4In6 3232235523) " cannot be the same as router ip") := by
  decide

/-- C8: `checkNAD` splits the network identifier at its last '/' into a
namespace and a name (empty namespace and whole string as name when no
'/' is present), substitutes "default" for an empty namespace, queries
the registry with that pair, and returns exactly the lookup's result. -/
theorem checkNAD_splits_at_last_slash
    (nadGet : List Char → List Char → Option String) (s : List Char) :
    (('/' : Char) ∈ s →
      s = (RSplit s).1 ++ '/' :: (RSplit s).2 ∧ ('/' : Char) ∉ (RSplit s).2)
    ∧ (('/' : Char) ∉ s → RSplit s = ([], s))
    ∧ checkNAD nadGet s
        = nadGet (if (RSplit s).1 = [] then "default".toList else (RSplit s).1)
            (RSplit s).2 := by
  refine ⟨?_, ?_, ?_⟩
  · intro hs
    unfold RSplit
    cases haux : rsplitSlashAux s with
    | some p =>
      obtain ⟨pre, post⟩ := p
      simpa using rsplitSlashAux_some s pre post haux
    | none => exact absurd hs (rsplitSlashAux_none s haux)
  · intro hs
    unfold RSplit
    cases haux : rsplitSlashAux s with
    | some p =>
      obtain ⟨pre, post⟩ := p
      have h1 := (rsplitSlashAux_some s pre post haux).1
      rw [h1] at hs
      simp at hs
    | none => rfl
  · unfold checkNAD
    rfl

/-- C8 witness: "a/b/c" splits at its last '/' into namespace "a/b" and
name "c"; "net1" has no '/' and gets the "default" namespace; the
lookup's result is returned as-is. -/
theorem checkNAD_splits_at_last_slash_witness :
    "a/b/c".toList = "a/b".toList ++ '/' :: "c".toList
    ∧ ('/' : Char) ∉ "c".toList
    ∧ checkNAD (fun ns name => some (String.mk (ns ++ name))) "a/b/c".toList
        = some "a/bc"
    ∧ checkNAD (fun ns name => some (String.mk (ns ++ name))) "net1".toList
        = some "defaultnet1" := by
  have h1 := checkNAD_splits_at_last_slash
    (fun ns name => some (String.mk (ns ++ name))) "a/b/c".toList
  have h2 := checkNAD_splits_at_last_slash
    (fun ns name => some (String.mk (ns ++ name))) "net1".toList
  have hr1 : RSplit "a/b/c".toList = ("a/b".toList, "c".toList) := by decide
  have hm := h1.1 (by decide)
  rw [hr1] at hm
  refine ⟨hm.1, hm.2, ?_, ?_⟩
  · have h3 := h1.2.2
    rw [hr1] at h3
    exact h3.trans (by decide)
  · have h4 := h2.2.2
    have hr2 := h2.2.1 (by decide)
    rw [hr2] at h4
    exact h4.trans (by decide)

end VmDhcp
